import Mathlib

/-!
Shallow embedding of `smart_farming_assistant_save_models_and_preprocessors.py`.

The script loads a tabular dataset, splits it into train/validation/test,
fits a mean imputer, a min-max scaler and a one-hot encoder on the train
partition only, applies them to all partitions and to a live single-row
input, derives soil moisture from humidity with a step function, fetches
weather with a default fallback, and selects a soil type by raw Python
list indexing.

Numeric cells are modelled as `Option ℚ` (`none` = missing/NaN); all
arithmetic is exact rational arithmetic standing in for the floats of
numpy/sklearn.
-/

namespace SmartFarming

/-- A numeric table cell: a value, or missing (NaN in pandas). -/
abbrev Cell := Option ℚ

/-- The numeric input columns of the dataset, in their original order, as
identified by `select_dtypes(include=np.number)` on `train_inputs`
(line 138 of the script). -/
def numericCols : List String :=
  ["Temparature", "Humidity", "Moisture", "Nitrogen", "Potassium", "Phosphorous"]

/-- The categorical input columns, as identified by
`select_dtypes(include='object')` on `train_inputs` (line 139). -/
def categoricalCols : List String := ["Soil Type"]

/-- One row of input features: numeric cells aligned with `numericCols`,
plus the single categorical `Soil Type` value. -/
structure RawRow where
  nums : List Cell
  soil : String
deriving DecidableEq

/-- The non-missing values of a column (what `SimpleImputer` averages). -/
def observed (col : List Cell) : List ℚ := col.filterMap id

/-- Arithmetic mean of a list of rationals (the `strategy='mean'` statistic
of `SimpleImputer`, line 146). For the empty list this yields `0/0 = 0`;
sklearn instead drops an all-missing column, so theorems below assume at
least one observed value. -/
def colMean (xs : List ℚ) : ℚ := xs.sum / (xs.length : ℚ)

/-- `SimpleImputer.transform` on one cell: missing cells are replaced by
the stored training mean, present values pass through (lines 150-152, 343). -/
def imputeCell (m : ℚ) : Cell → ℚ
  | none => m
  | some x => x

/-- Minimum of a list (numpy `min` over a column; `0` for `[]`, unused). -/
def listMin : List ℚ → ℚ
  | [] => 0
  | x :: xs => xs.foldl min x

/-- Maximum of a list (numpy `max` over a column; `0` for `[]`, unused). -/
def listMax : List ℚ → ℚ
  | [] => 0
  | x :: xs => xs.foldl max x

/-- The per-column fitted statistics: the imputer's training mean
(`SimpleImputer.statistics_`) and the scaler's training minimum and
maximum (`MinMaxScaler.data_min_` / `data_max_`). -/
structure ColStats where
  mean : ℚ
  dmin : ℚ
  dmax : ℚ
deriving DecidableEq

/-- Fit the imputer then the scaler on one training column, exactly as the
script does: the imputer's mean is computed from the observed training
values (line 147), the column is imputed in place (line 150), and the
scaler's min/max are then computed from the imputed training column
(line 158). -/
def fitCol (col : List Cell) : ColStats :=
  { mean := colMean (observed col),
    dmin := listMin (col.map (imputeCell (colMean (observed col)))),
    dmax := listMax (col.map (imputeCell (colMean (observed col)))) }

/-- `MinMaxScaler`'s denominator: `data_max_ - data_min_`, with a zero
range replaced by 1 (sklearn's `_handle_zeros_in_scale`). -/
def scaleDenom (s : ColStats) : ℚ := if s.dmax = s.dmin then 1 else s.dmax - s.dmin

/-- `MinMaxScaler.transform` on one value: `(x - data_min_) / range`,
with no clamping (lines 161-163, 344). -/
def scaleCell (s : ColStats) (x : ℚ) : ℚ := (x - s.dmin) / scaleDenom s

/-- The full numeric transform of one cell: impute with the stored mean,
then scale with the stored min/max. -/
def transformCell (s : ColStats) (c : Cell) : ℚ := scaleCell s (imputeCell s.mean c)

/-- Insert a string into a sorted list, keeping it sorted. -/
def insertSorted (x : String) : List String → List String
  | [] => [x]
  | y :: ys => if x < y then x :: y :: ys else y :: insertSorted x ys

/-- Sort a list of strings (insertion sort). -/
def sortStrings (l : List String) : List String := l.foldr insertSorted []

/-- `OneHotEncoder.fit` on the soil-type column (line 169): the fitted
vocabulary `categories_` is the sorted list of distinct observed levels
(numpy `unique` semantics). -/
def fitEncoder (vals : List String) : List String := sortStrings vals.dedup

/-- `OneHotEncoder.transform` on one categorical value with
`handle_unknown='ignore'` (line 168): an indicator per fitted category;
a value outside the vocabulary yields all zeros and no error. -/
def oneHotRow (cats : List String) (v : String) : List ℚ :=
  cats.map (fun c => if v = c then 1 else 0)

/-- `get_feature_names_out` for the single categorical column: each fitted
category `c` becomes the output column name `Soil Type_c` (line 170). -/
def encodedColNames (cats : List String) : List String :=
  cats.map (fun c => "Soil Type_" ++ c)

/-- The whole fitted preprocessing state: per-numeric-column statistics
aligned with `numericCols`, plus the encoder's fitted vocabulary. -/
structure FittedPrep where
  stats : List ColStats
  cats : List String
deriving DecidableEq

/-- Column `j` of the numeric part of a list of rows. -/
def column (rows : List RawRow) (j : Nat) : List Cell :=
  rows.map (fun r => r.nums.getD j none)

/-- Fit the entire preprocessing pipeline on the train partition, as the
script does at lines 147 (imputer), 158 (scaler) and 169 (encoder): each
transformer is fitted once, on train rows only. -/
def fitPrep (rows : List RawRow) : FittedPrep :=
  { stats := (List.range numericCols.length).map (fun j => fitCol (column rows j)),
    cats := fitEncoder (rows.map (fun r => r.soil)) }

/-- Apply the fitted imputer to the numeric cells of one row (the
per-row content of `imputer.transform`, lines 150-152 and 343). -/
def imputeRow (p : FittedPrep) (nums : List Cell) : List ℚ :=
  List.zipWith (fun s c => imputeCell s.mean c) p.stats nums

/-- Apply the fitted scaler to the imputed numeric cells of one row (the
per-row content of `scaler.transform`, lines 161-163 and 344). -/
def scaleRow (p : FittedPrep) (xs : List ℚ) : List ℚ :=
  List.zipWith scaleCell p.stats xs

/-- The train/validation/test feature row after preprocessing: the script
imputes and scales the numeric columns in place, drops the categorical
columns and concatenates the encoded columns on the right
(lines 150-186), so the labelled output is the scaled numeric columns in
original order followed by the one-hot columns in fitted order. -/
def trainPathRow (p : FittedPrep) (r : RawRow) : List (String × ℚ) :=
  List.zip numericCols (scaleRow p (imputeRow p r.nums)) ++
    List.zip (encodedColNames p.cats) (oneHotRow p.cats r.soil)

/-- The live single-row feature record: the script imputes the raw record
in place (line 343), scales it into a frame labelled by `numeric_cols`
(line 344), encodes into a frame labelled by `encoded_cols` (line 349)
and concatenates numeric-then-encoded (line 354). -/
def livePathRow (p : FittedPrep) (r : RawRow) : List (String × ℚ) :=
  List.zip numericCols (scaleRow p (imputeRow p r.nums)) ++
    List.zip (encodedColNames p.cats) (oneHotRow p.cats r.soil)

/-- `estimate_moisture` (lines 275-282): a step function of humidity. -/
def estimate_moisture (humidity : ℚ) : ℚ :=
  if humidity > 80 then 70
  else if humidity > 60 then 60
  else if humidity > 40 then 50
  else if humidity > 20 then 40
  else 30

/-- The JSON body of the weather HTTP response, as far as `get_weather`
inspects it: unparseable, parseable without a `current` key, or a
`current` object with optional `temp_c` and `humidity` fields. -/
inductive JsonBody where
  | invalid : JsonBody
  | noCurrent : JsonBody
  | current (temp_c : Option ℚ) (humidity : Option ℚ) : JsonBody
deriving DecidableEq

/-- Outcome of `requests.get` in `get_weather`: a transport-level failure
(raising `requests.exceptions.RequestException`), or an HTTP response
with a status code and a body. -/
inductive FetchResult where
  | netError : FetchResult
  | response (status : Nat) (body : JsonBody) : FetchResult
deriving DecidableEq

/-- A Python exception that escapes the modelled code uncaught. -/
inductive PyErr where
  | keyError : PyErr
  | indexError : PyErr
deriving DecidableEq

/-- Decidable equality for `Except`, used to evaluate the modelled
fallible operations on concrete inputs. -/
instance exceptDecEq {ε α : Type} [DecidableEq ε] [DecidableEq α] :
    DecidableEq (Except ε α) := fun
  | .ok a, .ok b =>
    if h : a = b then .isTrue (by rw [h])
    else .isFalse (fun hh => h (Except.ok.inj hh))
  | .error e, .error f =>
    if h : e = f then .isTrue (by rw [h])
    else .isFalse (fun hh => h (Except.error.inj hh))
  | .ok _, .error _ => .isFalse (fun hh => Except.noConfusion hh)
  | .error _, .ok _ => .isFalse (fun hh => Except.noConfusion hh)

/-- `get_weather` (lines 289-304). Inside `try`: `requests.get` (network
failure raises `RequestException`), `response.raise_for_status()` (raises
`HTTPError`, a `RequestException`, exactly when `400 <= status < 600` —
requests checks that range, and the script's own comment says 4xx or 5xx;
any other status, including one of 600 or above, passes through),
`response.json()` (an unparseable body
raises `requests.exceptions.JSONDecodeError`, which subclasses
`RequestException` in the requests library this Colab script runs
against), then `data['current']['temp_c']` and `data['current']['humidity']`
(a missing key raises `KeyError`, which is NOT a `RequestException`).
The `except requests.exceptions.RequestException` clause returns the
defaults `(25, 60)`; a `KeyError` propagates uncaught. -/
def get_weather : FetchResult → Except PyErr (ℚ × ℚ)
  | .netError => .ok (25, 60)
  | .response status body =>
    if 400 ≤ status ∧ status < 600 then .ok (25, 60)
    else
      match body with
      | .invalid => .ok (25, 60)
      | .noCurrent => .error .keyError
      | .current t h =>
        match t, h with
        | some t, some h => .ok (t, h)
        | _, _ => .error .keyError

/-- Python list subscription `l[i]`: a negative index counts from the end
(`i + len(l)`), and any resulting position outside `[0, len(l))` raises
`IndexError`. -/
def pyGetItem {α : Type} (l : List α) (i : Int) : Except PyErr α :=
  let j : Int := if i < 0 then i + (l.length : Int) else i
  if h : 0 ≤ j ∧ j < (l.length : Int) then
    Except.ok (l.get ⟨j.toNat, by omega⟩)
  else
    Except.error PyErr.indexError

/-- The soil-type selection step (line 325):
`selected_soil = soil_types_from_data[soil_choice]`, raw Python indexing
with no bounds checking. -/
def selectSoil (soilTypes : List String) (choice : Int) : Except PyErr String :=
  pyGetItem soilTypes choice

/-- `n_test` of `train_test_split(..., test_size=0.15)`: sklearn holds out
`ceil(0.15 * n)` rows. -/
def nTestOf (n : Nat) : Nat := ⌈(3 : ℚ) / 20 * (n : ℚ)⌉₊

/-- `train_test_split` applied to an already shuffled list of rows with a
given held-out size: sklearn takes the first `k` indices of the shuffled
permutation as the held-out set and the rest as the kept set; it returns
`(kept, held_out)`. -/
def train_test_split {α : Type} (shuffled : List α) (k : Nat) : List α × List α :=
  (shuffled.drop k, shuffled.take k)

/-- The script's two-stage split (lines 30-31): first 15% of all rows are
held out as test, then 15% of the remaining rows are held out as
validation. `s1` is the shuffle (by `random_state=42`) of the raw rows and
`s2` the shuffle of the remaining rows after the first split; results are
`(train, validation, test)`. -/
def splitScript {α : Type} (s1 s2 : List α) : List α × List α × List α :=
  let p1 := train_test_split s1 (nTestOf s1.length)
  let p2 := train_test_split s2 (nTestOf s2.length)
  (p2.1, p2.2, p1.2)

/-- The three sklearn transformers of the script. -/
inductive Transformer where
  | imputer : Transformer
  | scaler : Transformer
  | toOneHot : Transformer
deriving DecidableEq

/-- The datasets a transformer call can touch. -/
inductive Part where
  | train : Part
  | validation : Part
  | test : Part
  | live : Part
deriving DecidableEq

/-- One `fit` or `transform` call on a transformer, tagged with the
partition it reads. -/
inductive PrepEvent where
  | fit (t : Transformer) (src : Part) : PrepEvent
  | transform (t : Transformer) (src : Part) : PrepEvent
deriving DecidableEq

/-- The exact sequence of `fit`/`transform` calls the script performs, in
source order: imputer fit on train (line 147) and transforms (150-152),
scaler fit on train (158) and transforms (161-163), encoder fit on train
(169) and transforms (173-181), then the live-input transforms
(343, 344, 349). -/
def scriptPrepTrace : List PrepEvent :=
  [ .fit .imputer .train,
    .transform .imputer .train, .transform .imputer .validation, .transform .imputer .test,
    .fit .scaler .train,
    .transform .scaler .train, .transform .scaler .validation, .transform .scaler .test,
    .fit .toOneHot .train,
    .transform .toOneHot .train, .transform .toOneHot .validation, .transform .toOneHot .test,
    .transform .imputer .live, .transform .scaler .live, .transform .toOneHot .live ]

/-- State of the pipeline: for each transformer, the partition it was
last fitted on, if any. A `fit` records its source; a `transform` reads
the stored statistics and changes nothing. -/
def step (σ : Transformer → Option Part) : PrepEvent → (Transformer → Option Part)
  | .fit t src => fun t' => if t' = t then some src else σ t'
  | .transform _ _ => σ

/-- The sources of all `fit` events for transformer `t` in a trace. -/
def fitSources (t : Transformer) (evs : List PrepEvent) : List Part :=
  evs.filterMap (fun e =>
    match e with
    | .fit t' src => if t' = t then some src else none
    | .transform _ _ => none)

/-- Check that every `transform` event in a trace runs with its
transformer already fitted on the train partition. -/
def transformsUseTrainFit (σ : Transformer → Option Part) : List PrepEvent → Bool
  | [] => true
  | e :: rest =>
    (match e with
     | .transform t _ =>
       match σ t with
       | some Part.train => true
       | _ => false
     | .fit _ _ => true) && transformsUseTrainFit (step σ e) rest

/-! ## Helper lemmas -/

lemma foldl_min_le_init (l : List ℚ) (a : ℚ) : l.foldl min a ≤ a := by
  induction l generalizing a with
  | nil => simp
  | cons x xs ih => exact le_trans (ih (min a x)) (min_le_left a x)

lemma foldl_min_le_mem (l : List ℚ) (a x : ℚ) (hx : x ∈ l) : l.foldl min a ≤ x := by
  induction l generalizing a with
  | nil => cases hx
  | cons y ys ih =>
    rcases List.mem_cons.mp hx with h | h
    · subst h
      exact le_trans (foldl_min_le_init ys (min a x)) (min_le_right a x)
    · exact ih (min a y) h

lemma init_le_foldl_max (l : List ℚ) (a : ℚ) : a ≤ l.foldl max a := by
  induction l generalizing a with
  | nil => simp
  | cons x xs ih => exact le_trans (le_max_left a x) (ih (max a x))

lemma mem_le_foldl_max (l : List ℚ) (a x : ℚ) (hx : x ∈ l) : x ≤ l.foldl max a := by
  induction l generalizing a with
  | nil => cases hx
  | cons y ys ih =>
    rcases List.mem_cons.mp hx with h | h
    · subst h
      exact le_trans (le_max_right a x) (init_le_foldl_max ys (max a x))
    · exact ih (max a y) h

lemma listMin_le (l : List ℚ) (x : ℚ) (hx : x ∈ l) : listMin l ≤ x := by
  cases l with
  | nil => cases hx
  | cons y ys =>
    rcases List.mem_cons.mp hx with h | h
    · subst h; exact foldl_min_le_init ys x
    · exact foldl_min_le_mem ys y x h

lemma le_listMax (l : List ℚ) (x : ℚ) (hx : x ∈ l) : x ≤ listMax l := by
  cases l with
  | nil => cases hx
  | cons y ys =>
    rcases List.mem_cons.mp hx with h | h
    · subst h; exact init_le_foldl_max ys x
    · exact mem_le_foldl_max ys y x h

lemma scaleCell_unit (s : ColStats) (x : ℚ) (h1 : s.dmin ≤ x) (h2 : x ≤ s.dmax) :
    0 ≤ scaleCell s x ∧ scaleCell s x ≤ 1 := by
  unfold scaleCell scaleDenom
  by_cases hq : s.dmax = s.dmin
  · have hx : x = s.dmin := le_antisymm (hq ▸ h2) h1
    rw [if_pos hq, hx]
    norm_num
  · have hlt : s.dmin < s.dmax := lt_of_le_of_ne (le_trans h1 h2) (Ne.symm hq)
    have hd : (0 : ℚ) < s.dmax - s.dmin := by linarith
    rw [if_neg hq]
    constructor
    · exact div_nonneg (by linarith) (le_of_lt hd)
    · rw [div_le_one hd]; linarith

lemma mem_insertSorted (x a : String) (l : List String) :
    a ∈ insertSorted x l ↔ a = x ∨ a ∈ l := by
  induction l with
  | nil => simp [insertSorted]
  | cons y ys ih =>
    show a ∈ (if x < y then x :: y :: ys else y :: insertSorted x ys) ↔ _
    by_cases h : x < y
    · rw [if_pos h]
      simp only [List.mem_cons]
    · rw [if_neg h]
      simp only [List.mem_cons, ih]
      tauto

lemma mem_sortStrings (a : String) (l : List String) :
    a ∈ sortStrings l ↔ a ∈ l := by
  induction l with
  | nil => simp [sortStrings]
  | cons x xs ih =>
    show a ∈ insertSorted x (sortStrings xs) ↔ _
    rw [mem_insertSorted, ih]
    simp

lemma mem_fitEncoder (a : String) (l : List String) :
    a ∈ fitEncoder l ↔ a ∈ l := by
  rw [fitEncoder, mem_sortStrings, List.mem_dedup]

lemma oneHotRow_of_not_mem (cats : List String) (v : String) (hv : v ∉ cats) :
    oneHotRow cats v = List.replicate cats.length 0 := by
  induction cats with
  | nil => rfl
  | cons c cs ih =>
    have hvc : v ≠ c := fun h => hv (h ▸ List.mem_cons_self c cs)
    have hvs : v ∉ cs := fun h => hv (List.mem_cons_of_mem c h)
    show (if v = c then (1 : ℚ) else 0) :: oneHotRow cs v = _
    rw [if_neg hvc, ih hvs]
    simp [List.replicate_succ]

lemma fitPrep_stats_length (rows : List RawRow) :
    (fitPrep rows).stats.length = numericCols.length := by
  simp [fitPrep]

lemma nTestOf_le (n : Nat) : nTestOf n ≤ n := by
  rw [nTestOf, Nat.ceil_le]
  calc (3 : ℚ) / 20 * n ≤ 1 * n := by
        apply mul_le_mul_of_nonneg_right (by norm_num) (by positivity)
    _ = n := one_mul _

lemma nTestOf_seven : nTestOf 7 = 2 := by
  norm_num [nTestOf, Nat.ceil_eq_iff]

/-! ## Claim theorems -/

/-- C1: in the script's preprocessing trace each of the three transformers
is fitted exactly once, with the train partition as the only fit source;
every `transform` call executes with its transformer already fitted on
train; and a `transform` step never changes the fitted state, so repeated
transforms of the same input see identical stored statistics. -/
theorem spec_c1_fit_once_on_train :
    fitSources Transformer.imputer scriptPrepTrace = [Part.train] ∧
    fitSources Transformer.scaler scriptPrepTrace = [Part.train] ∧
    fitSources Transformer.toOneHot scriptPrepTrace = [Part.train] ∧
    transformsUseTrainFit (fun _ => none) scriptPrepTrace = true ∧
    ∀ (σ : Transformer → Option Part) (t : Transformer) (p : Part),
      step σ (PrepEvent.transform t p) = σ :=
  ⟨by decide, by decide, by decide, by decide, fun _ _ _ => rfl⟩

/-- C3: `estimate_moisture` is the step function humidity>80→70, >60→60,
>40→50, >20→40, else 30, with the spec's five sample points. -/
theorem spec_c3_moisture_step :
    (∀ h : ℚ,
      (80 < h → estimate_moisture h = 70) ∧
      (60 < h → h ≤ 80 → estimate_moisture h = 60) ∧
      (40 < h → h ≤ 60 → estimate_moisture h = 50) ∧
      (20 < h → h ≤ 40 → estimate_moisture h = 40) ∧
      (h ≤ 20 → estimate_moisture h = 30)) ∧
    estimate_moisture 85 = 70 ∧ estimate_moisture 70 = 60 ∧
    estimate_moisture 50 = 50 ∧ estimate_moisture 30 = 40 ∧
    estimate_moisture 10 = 30 := by
  refine ⟨fun h => ⟨?_, ?_, ?_, ?_, ?_⟩,
    by decide, by decide, by decide, by decide, by decide⟩
  all_goals
    intros
    unfold estimate_moisture
    split_ifs <;> first | rfl | linarith

theorem spec_c3_moisture_step_witness :
    (80 : ℚ) < 85 ∧ estimate_moisture 85 = 70 :=
  ⟨by decide, (spec_c3_moisture_step.1 85).1 (by decide)⟩

/-- C4: a categorical value not observed during fit is encoded by the
fitted encoder as the all-zero indicator vector of the fitted vocabulary,
and the output always has the vocabulary's length (no error path). -/
theorem spec_c4_unknown_level_all_zeros :
    ∀ (trainVals : List String) (v : String), v ∉ trainVals →
      oneHotRow (fitEncoder trainVals) v =
        List.replicate (fitEncoder trainVals).length 0 ∧
      (oneHotRow (fitEncoder trainVals) v).length = (fitEncoder trainVals).length := by
  intro trainVals v hv
  have hv2 : v ∉ fitEncoder trainVals :=
    fun hmem => hv ((mem_fitEncoder v trainVals).mp hmem)
  exact ⟨oneHotRow_of_not_mem _ v hv2, by simp [oneHotRow]⟩

theorem spec_c4_unknown_level_all_zeros_witness :
    "Clayey" ∉ ["Loamy", "Sandy", "Black"] ∧
    oneHotRow (fitEncoder ["Loamy", "Sandy", "Black"]) "Clayey" =
      List.replicate (fitEncoder ["Loamy", "Sandy", "Black"]).length 0 :=
  ⟨by decide, (spec_c4_unknown_level_all_zeros _ _ (by decide)).1⟩

/-- C5 counterexample: a non-2xx (here 3xx) response whose body parses and
has the fields does NOT trigger the default fallback — `raise_for_status`
only raises for 4xx/5xx, so the body's values are returned. -/
theorem spec_c5_counterexample :
    get_weather (FetchResult.response 301 (JsonBody.current (some 10) (some 50))) =
      Except.ok (10, 50) := rfl

/-- C5 (amended): the defaults (25, 60) are returned, with no propagated
error, exactly on a network error or an HTTP status in 400-599 (what
`raise_for_status` raises for). -/
theorem spec_c5_amended_fallback :
    ∀ (status : Nat) (body : JsonBody),
      get_weather FetchResult.netError = Except.ok (25, 60) ∧
      (400 ≤ status → status < 600 →
        get_weather (FetchResult.response status body) = Except.ok (25, 60)) := by
  intro status body
  refine ⟨rfl, fun h1 h2 => ?_⟩
  simp only [get_weather]
  rw [if_pos ⟨h1, h2⟩]

theorem spec_c5_amended_fallback_witness :
    400 ≤ 404 ∧ 404 < 600 ∧
    get_weather (FetchResult.response 404 JsonBody.invalid) = Except.ok (25, 60) :=
  ⟨by decide, by decide,
   (spec_c5_amended_fallback 404 JsonBody.invalid).2 (by decide) (by decide)⟩

/-- C9 counterexample: a 2xx response with an unparseable body does not
terminate the process — `response.json()` raises
`requests.exceptions.JSONDecodeError`, a `RequestException`, so the
fallback defaults are returned. -/
theorem spec_c9_counterexample :
    get_weather (FetchResult.response 200 JsonBody.invalid) = Except.ok (25, 60) := rfl

/-- C9 (amended): on a response passing `raise_for_status`, a parseable
body missing `current`, `temp_c` or `humidity` raises an uncaught
`KeyError`, while an unparseable body triggers the default fallback. -/
theorem spec_c9_amended_missing_fields :
    ∀ (status : Nat) (t h : Option ℚ), status < 400 →
      get_weather (FetchResult.response status JsonBody.noCurrent) =
        Except.error PyErr.keyError ∧
      (t = none ∨ h = none →
        get_weather (FetchResult.response status (JsonBody.current t h)) =
          Except.error PyErr.keyError) ∧
      get_weather (FetchResult.response status JsonBody.invalid) =
        Except.ok (25, 60) := by
  intro status t h hs
  have hns : ¬ (400 ≤ status ∧ status < 600) := by omega
  refine ⟨?_, ?_, ?_⟩
  · simp only [get_weather]
    rw [if_neg hns]
  · intro hcase
    simp only [get_weather]
    rw [if_neg hns]
    cases t with
    | none => rfl
    | some tv =>
      cases h with
      | none => rfl
      | some hv =>
        rcases hcase with hc | hc <;> simp at hc
  · simp only [get_weather]
    rw [if_neg hns]

theorem spec_c9_amended_missing_fields_witness :
    200 < 400 ∧ ((none : Option ℚ) = none ∨ (some (50 : ℚ)) = none) ∧
    get_weather (FetchResult.response 200 JsonBody.noCurrent) =
      Except.error PyErr.keyError ∧
    get_weather (FetchResult.response 200 (JsonBody.current none (some 50))) =
      Except.error PyErr.keyError :=
  ⟨by decide, Or.inl rfl,
   (spec_c9_amended_missing_fields 200 none (some 50) (by decide)).1,
   (spec_c9_amended_missing_fields 200 none (some 50) (by decide)).2.1 (Or.inl rfl)⟩

/-- C8: the soil-type selection performs raw list indexing, so an index
equal to the vocabulary size raises an uncontrolled IndexError instead of
rejecting or re-prompting — the spec's required behaviour, absent from
the code. -/
theorem spec_c8_index_fault :
    selectSoil ["Black", "Clayey", "Loamy", "Red", "Sandy"] 5 =
      Except.error PyErr.indexError := by decide

/-- C10: a negative soil index whose absolute value is at most the
vocabulary size silently selects the element counted from the end of the
vocabulary list, with no error. -/
theorem spec_c10_negative_index :
    ∀ (soilTypes : List String) (i : Int), i < 0 → i.natAbs ≤ soilTypes.length →
      ∃ v, soilTypes.get? (soilTypes.length - i.natAbs) = some v ∧
        selectSoil soilTypes i = Except.ok v := by
  intro l i hneg hle
  have hab : 0 < i.natAbs := by omega
  have hidx : l.length - i.natAbs < l.length := by omega
  refine ⟨l.get ⟨l.length - i.natAbs, hidx⟩, List.get?_eq_get hidx, ?_⟩
  simp only [selectSoil, pyGetItem]
  rw [dif_pos (show (0 ≤ if i < 0 then i + (l.length : Int) else i) ∧
      (if i < 0 then i + (l.length : Int) else i) < (l.length : Int) by
    rw [if_pos hneg]; constructor <;> omega)]
  refine congrArg Except.ok (congrArg l.get (Fin.ext ?_))
  show (if i < 0 then i + (l.length : Int) else i).toNat = l.length - i.natAbs
  rw [if_pos hneg]
  omega

/-- C2: for any fitted pipeline and any input row of the training schema,
both the train/val/test path and the live path produce a feature vector
whose column labels are the numeric columns in original order followed by
the one-hot columns in the order fixed at fit time, and the two paths
produce identical labelled vectors. -/
theorem spec_c2_column_order :
    ∀ (rows : List RawRow) (r : RawRow),
      r.nums.length = numericCols.length →
      (trainPathRow (fitPrep rows) r).map Prod.fst =
          numericCols ++ encodedColNames (fitPrep rows).cats ∧
      (livePathRow (fitPrep rows) r).map Prod.fst =
          numericCols ++ encodedColNames (fitPrep rows).cats ∧
      trainPathRow (fitPrep rows) r = livePathRow (fitPrep rows) r := by
  intro rows r hr
  have hstats := fitPrep_stats_length rows
  have hnum : numericCols.length ≤
      (scaleRow (fitPrep rows) (imputeRow (fitPrep rows) r.nums)).length := by
    simp only [scaleRow, imputeRow, List.length_zipWith, hstats, hr]
    omega
  have henc : (encodedColNames (fitPrep rows).cats).length ≤
      (oneHotRow (fitPrep rows).cats r.soil).length := by
    simp [encodedColNames, oneHotRow]
  refine ⟨?_, ?_, rfl⟩ <;>
  · show (List.zip numericCols _ ++ List.zip (encodedColNames _) _).map Prod.fst = _
    rw [List.map_append, List.map_fst_zip _ _ hnum, List.map_fst_zip _ _ henc]

theorem spec_c2_column_order_witness :
    (RawRow.mk [some 25, some 60, some 50, some 37, some 0, some 0] "Loamy").nums.length =
      numericCols.length ∧
    trainPathRow (fitPrep [RawRow.mk [some 25, some 60, some 50, some 37, some 0, some 0] "Loamy"])
        (RawRow.mk [some 25, some 60, some 50, some 37, some 0, some 0] "Loamy") =
      livePathRow (fitPrep [RawRow.mk [some 25, some 60, some 50, some 37, some 0, some 0] "Loamy"])
        (RawRow.mk [some 25, some 60, some 50, some 37, some 0, some 0] "Loamy") :=
  ⟨by decide, (spec_c2_column_order _ _ (by decide)).2.2⟩

/-- C6: imputing then scaling with statistics fitted on a training column
maps every training cell into [0, 1] (assuming the column has at least
one observed value, since sklearn drops all-missing columns); and the
scaling applies the raw linear map with no clamping, so a later value can
be mapped strictly above 1. -/
theorem spec_c6_train_unit_range :
    (∀ (col : List Cell), observed col ≠ [] → ∀ c ∈ col,
        0 ≤ transformCell (fitCol col) c ∧ transformCell (fitCol col) c ≤ 1) ∧
    (∃ (col : List Cell) (v : ℚ), observed col ≠ [] ∧
        1 < transformCell (fitCol col) (some v)) := by
  constructor
  · intro col _ c hc
    have hmem : imputeCell (fitCol col).mean c ∈
        col.map (imputeCell (colMean (observed col))) :=
      List.mem_map_of_mem _ hc
    have h1 : (fitCol col).dmin ≤ imputeCell (fitCol col).mean c :=
      listMin_le _ _ hmem
    have h2 : imputeCell (fitCol col).mean c ≤ (fitCol col).dmax :=
      le_listMax _ _ hmem
    exact scaleCell_unit _ _ h1 h2
  · refine ⟨[some 0, none], 2, by decide, ?_⟩
    have hobs : observed [some 0, none] = [(0 : ℚ)] := rfl
    have hm : colMean [(0 : ℚ)] = 0 := by
      norm_num [colMean, List.sum_cons, List.sum_nil]
    have hfit : fitCol [some 0, none] = ⟨0, 0, 0⟩ := by
      simp only [fitCol, hobs, hm]
      norm_num [imputeCell, listMin, listMax, List.map, List.foldl, min_self, max_self]
    rw [show transformCell (fitCol [some 0, none]) (some 2) =
        scaleCell (fitCol [some 0, none]) 2 from rfl, hfit]
    norm_num [scaleCell, scaleDenom]

theorem spec_c6_train_unit_range_witness :
    observed [some 0, none, some 2] ≠ [] ∧
    (some (0 : ℚ)) ∈ [some (0 : ℚ), none, some 2] ∧
    0 ≤ transformCell (fitCol [some 0, none, some 2]) (some 0) ∧
    transformCell (fitCol [some 0, none, some 2]) (some 0) ≤ 1 :=
  ⟨by decide, by decide,
   (spec_c6_train_unit_range.1 _ (by decide) _ (by decide)).1,
   (spec_c6_train_unit_range.1 _ (by decide) _ (by decide)).2⟩

/-- C7: the two-stage split is an exact partition of the source rows —
train, validation and test together are a permutation of the raw dataset
(so the three parts are disjoint row selections whose union is the whole
dataset), the test part holds `ceil(0.15 * n)` rows and the validation
part holds `ceil(0.15 *)` of the remaining rows. -/
theorem spec_c7_split_partition :
    ∀ {α : Type} (raw s1 s2 : List α),
      s1.Perm raw →
      s2.Perm (train_test_split s1 (nTestOf s1.length)).1 →
      ((splitScript s1 s2).1 ++ (splitScript s1 s2).2.1 ++ (splitScript s1 s2).2.2).Perm raw ∧
      (splitScript s1 s2).2.2.length = nTestOf raw.length ∧
      (splitScript s1 s2).2.1.length = nTestOf (raw.length - nTestOf raw.length) ∧
      (splitScript s1 s2).1.length + (splitScript s1 s2).2.1.length +
          (splitScript s1 s2).2.2.length = raw.length := by
  intro α raw s1 s2 h1 h2
  simp only [splitScript, train_test_split]
  have h2' : s2.Perm (s1.drop (nTestOf s1.length)) := h2
  have hl1 : s1.length = raw.length := h1.length_eq
  have hl2 : s2.length = raw.length - nTestOf raw.length := by
    rw [h2'.length_eq, List.length_drop, hl1]
  have ht2 : s2.take (nTestOf s2.length) ++ s2.drop (nTestOf s2.length) = s2 :=
    List.take_append_drop _ s2
  have ha2 : (s2.take (nTestOf s2.length) ++ s2.drop (nTestOf s2.length)).Perm s2 := by
    rw [ht2]
  have ha : (s2.drop (nTestOf s2.length) ++ s2.take (nTestOf s2.length)).Perm s2 :=
    List.perm_append_comm.trans ha2
  have hb : (s2.drop (nTestOf s2.length) ++ s2.take (nTestOf s2.length)).Perm
      (s1.drop (nTestOf s1.length)) := ha.trans h2'
  have hc : (s2.drop (nTestOf s2.length) ++ s2.take (nTestOf s2.length) ++
      s1.take (nTestOf s1.length)).Perm
      (s1.drop (nTestOf s1.length) ++ s1.take (nTestOf s1.length)) :=
    hb.append_right _
  have ht1 : s1.take (nTestOf s1.length) ++ s1.drop (nTestOf s1.length) = s1 :=
    List.take_append_drop _ s1
  have hd2 : (s1.take (nTestOf s1.length) ++ s1.drop (nTestOf s1.length)).Perm s1 := by
    rw [ht1]
  have hd : (s1.drop (nTestOf s1.length) ++ s1.take (nTestOf s1.length)).Perm s1 :=
    List.perm_append_comm.trans hd2
  refine ⟨hc.trans (hd.trans h1), ?_, ?_, ?_⟩
  · rw [List.length_take, hl1]
    have := nTestOf_le raw.length
    omega
  · rw [List.length_take, hl2]
    have := nTestOf_le (raw.length - nTestOf raw.length)
    omega
  · rw [List.length_drop, List.length_take, List.length_take, hl1, hl2]
    have := nTestOf_le raw.length
    have := nTestOf_le (raw.length - nTestOf raw.length)
    omega

theorem spec_c7_split_partition_witness :
    (([6, 0, 1, 2, 3, 4, 5] : List ℕ).Perm [0, 1, 2, 3, 4, 5, 6]) ∧
    (([5, 1, 2, 3, 4] : List ℕ).Perm
      (train_test_split [6, 0, 1, 2, 3, 4, 5]
        (nTestOf ([6, 0, 1, 2, 3, 4, 5] : List ℕ).length)).1) ∧
    (((splitScript [6, 0, 1, 2, 3, 4, 5] [5, 1, 2, 3, 4]).1 ++
        (splitScript [6, 0, 1, 2, 3, 4, 5] [5, 1, 2, 3, 4]).2.1 ++
        (splitScript [6, 0, 1, 2, 3, 4, 5] [5, 1, 2, 3, 4]).2.2).Perm
      ([0, 1, 2, 3, 4, 5, 6] : List ℕ)) ∧
    (splitScript ([6, 0, 1, 2, 3, 4, 5] : List ℕ) [5, 1, 2, 3, 4]).2.2.length =
      nTestOf ([0, 1, 2, 3, 4, 5, 6] : List ℕ).length := by
  have hp1 : (([6, 0, 1, 2, 3, 4, 5] : List ℕ).Perm [0, 1, 2, 3, 4, 5, 6]) := by decide
  have hn7 : nTestOf ([6, 0, 1, 2, 3, 4, 5] : List ℕ).length = 2 := nTestOf_seven
  have hp2 : (([5, 1, 2, 3, 4] : List ℕ).Perm
      (train_test_split [6, 0, 1, 2, 3, 4, 5]
        (nTestOf ([6, 0, 1, 2, 3, 4, 5] : List ℕ).length)).1) := by
    rw [hn7]
    decide
  have hmain := spec_c7_split_partition [0, 1, 2, 3, 4, 5, 6] [6, 0, 1, 2, 3, 4, 5]
    [5, 1, 2, 3, 4] hp1 hp2
  exact ⟨hp1, hp2, hmain.1, hmain.2.1⟩

theorem spec_c10_negative_index_witness :
    (-1 : Int) < 0 ∧
    (-1 : Int).natAbs ≤ (["Black", "Clayey", "Loamy", "Red", "Sandy"] : List String).length ∧
    ∃ v, (["Black", "Clayey", "Loamy", "Red", "Sandy"] : List String).get?
        ((["Black", "Clayey", "Loamy", "Red", "Sandy"] : List String).length -
          (-1 : Int).natAbs) = some v ∧
      selectSoil ["Black", "Clayey", "Loamy", "Red", "Sandy"] (-1) = Except.ok v :=
  ⟨by decide, by decide,
   spec_c10_negative_index _ _ (by decide) (by decide)⟩

end SmartFarming
